import Mathlib

/-!
Shallow embedding of the editor-history recovery scripts of this repository.

The scripts scan editor local-history roots.  Each root contains one folder
per tracked file; a folder holds a manifest (entries.json) with a resource
URI and a list of snapshot entries, plus one blob file per entry id.

Modelling conventions:
* Python strings are lists of characters (Str).
* Timestamps are naturals, in milliseconds since the epoch, as stored in
  the manifests.  The scripts sort by datetime.fromtimestamp of the
  millisecond value divided by 1000, which is a monotone function of the
  millisecond value, so the sort key in the model is the millisecond value.
* The filesystem inputs are explicit values: a folder carries the parse
  state of its manifest and an association list from blob file name to blob
  state.  A name absent from the list models a file that does not exist; a
  blob in state statError models a file whose stat or read raises.
* The output directory is an association list from file name to file bytes;
  a write to an existing name overwrites it, as on a real filesystem.
* strftime rendering is modelled at UTC offset zero; the collision and
  uniqueness structure proved about the generated names does not depend on
  the (whole-second) timezone offset.
-/

set_option linter.unusedVariables false

/-- Python strings are modelled as lists of characters. -/
abbrev Str := List Char

/-- Python str.lower, character by character. -/
def toLowerS (s : Str) : Str := s.map Char.toLower

/-- Python substring test: needle in hay. -/
def strContains (hay needle : Str) : Bool :=
  match hay with
  | [] => needle.isEmpty
  | _ :: t => needle.isPrefixOf hay || strContains t needle

/-- Path separator test, both Windows and POSIX separators. -/
def isSep (c : Char) : Bool := c == '/' || c == '\\'

/-- os.path.basename: the part of the path after the last separator. -/
def basename (s : Str) : Str :=
  (s.reverse.takeWhile (fun c => !isSep c)).reverse

/-- One snapshot descriptor of a manifest: blob file name and timestamp in
milliseconds since the epoch. -/
structure SnapshotEntry where
  id : Str
  timestamp : Nat
  deriving DecidableEq

/-- A parsed entries.json manifest: the original resource URI and the list
of snapshot descriptors. -/
structure Manifest where
  resource : Str
  entries : List SnapshotEntry
  deriving DecidableEq

/-- State of a blob file on disk: present with its bytes, or present but
failing on stat/read.  A blob that does not exist at all is simply absent
from the folder's association list. -/
inductive BlobState where
  | present (bytes : List Nat)
  | statError
  deriving DecidableEq

/-- State of a folder's entries.json: missing, unparsable, or parsed. -/
inductive ManifestState where
  | missing
  | parseError
  | ok (m : Manifest)
  deriving DecidableEq

/-- One TrackedFileFolder: manifest state plus the blob files inside it. -/
structure Folder where
  manifest : ManifestState
  blobs : List (Str × BlobState)
  deriving DecidableEq

/-- Association-list lookup of a blob file by name.  A result of none
models a file for which os.path.exists returns False. -/
def lookupBlob (blobs : List (Str × BlobState)) (id : Str) : Option BlobState :=
  match blobs with
  | [] => none
  | (n, b) :: rest => if n = id then some b else lookupBlob rest id

/-- The tuple appended to found_files by search_history_records.py:
timestamp in ms, resource URI, blob id and the blob's bytes (the script
stores the source path and size; the bytes determine the size and are what
the later copy reads from that path). -/
structure Candidate where
  ts : Nat
  uri : Str
  blobId : Str
  bytes : List Nat
  deriving DecidableEq

/-- Sort a list in descending order of a natural-number key, as the
scripts' found.sort with a timestamp key and reverse=True does. -/
def sortDescBy (key : α → Nat) (l : List α) : List α :=
  l.mergeSort (fun a b => decide (key b ≤ key a))

/-- Output directory: association list from file name to file bytes. -/
abbrev Dir := List (Str × List Nat)

/-- shutil.copy2 into the output directory: write bytes under a name,
overwriting any previous file of that name. -/
def dirWrite (d : Dir) (name : Str) (content : List Nat) : Dir :=
  match d with
  | [] => [(name, content)]
  | (n, c) :: rest =>
    if n = name then (name, content) :: rest else (n, c) :: dirWrite rest name content

/-- Read a file of the output directory by name. -/
def dirRead (d : Dir) (name : Str) : Option (List Nat) :=
  match d with
  | [] => none
  | (n, c) :: rest => if n = name then some c else dirRead rest name

/-- Two-digit zero-padded decimal rendering of a field, as strftime pads
month, day, hour, minute and second (all such fields are below 100). -/
def two (n : Nat) : Str := [Nat.digitChar (n / 10 % 10), Nat.digitChar (n % 10)]

/-- Proleptic Gregorian civil date (year, month, day) from a count of days
since 1970-01-01, by the standard era decomposition. -/
def civilFromDays (z0 : Nat) : Nat × Nat × Nat :=
  let z := z0 + 719468
  let era := z / 146097
  let doe := z % 146097
  let yoe := (doe - doe / 1460 + doe / 36524) / 365
  let y := yoe + era * 400
  let doy := doe - (365 * yoe + yoe / 4 - yoe / 100)
  let mp := (5 * doy + 2) / 153
  let d := doy - (153 * mp + 2) / 5 + 1
  let m := if mp < 10 then mp + 3 else mp - 9
  (if m ≤ 2 then y + 1 else y, m, d)

/-- Month field of the civil date of an epoch-second count. -/
def monthOf (sec : Nat) : Nat := (civilFromDays (sec / 86400)).2.1

/-- Day-of-month field of the civil date of an epoch-second count. -/
def dayOf (sec : Nat) : Nat := (civilFromDays (sec / 86400)).2.2

/-- strftime of the pattern month-day-underscore-hour-minute-second applied
to datetime.fromtimestamp of a millisecond timestamp divided by 1000.  The
second-resolution fields depend only on the millisecond value divided by
1000, so two timestamps in the same second render identically. -/
def fmtMDHMS (ms : Nat) : Str :=
  two (monthOf (ms / 1000)) ++ two (dayOf (ms / 1000)) ++ '_' ::
    (two (ms / 1000 / 3600 % 24) ++ two (ms / 1000 / 60 % 60) ++ two (ms / 1000 % 60))

/-! ### search_history_records.py -/

/-- The filename selector of search_history_records.py line 34: the
lowercased target is tested as a substring of the lowercased resource URI
(the whole URI, not only its basename). -/
def shrMatches (target uri : Str) : Bool :=
  strContains (toLowerS uri) (toLowerS target)

/-- The inner loop over entries of search_history_records.py lines 37-45:
an entry whose blob does not exist is skipped; an entry whose blob exists
yields a candidate; a stat failure raises, so the blanket except of the
folder aborts the rest of that folder's entries (candidates appended before
the failure remain in found_files). -/
def shrEntriesGo (blobs : List (Str × BlobState)) (uri : Str) :
    List SnapshotEntry → List Candidate
  | [] => []
  | e :: rest =>
    match lookupBlob blobs e.id with
    | none => shrEntriesGo blobs uri rest
    | some BlobState.statError => []
    | some (BlobState.present bytes) =>
      { ts := e.timestamp, uri := uri, blobId := e.id, bytes := bytes } ::
        shrEntriesGo blobs uri rest

/-- Per-folder processing of search_history_records.py lines 24-46: a
missing or unparsable manifest contributes nothing; a parsed manifest whose
resource URI matches the target contributes its entry candidates. -/
def shrFolder (target : Str) (f : Folder) : List Candidate :=
  match f.manifest with
  | ManifestState.missing => []
  | ManifestState.parseError => []
  | ManifestState.ok m =>
    if shrMatches target m.resource then shrEntriesGo f.blobs m.resource m.entries
    else []

/-- The found_files list accumulated over the folders of one root, in
listdir order. -/
def shrScan (target : Str) (folders : List Folder) : List Candidate :=
  (folders.map (shrFolder target)).flatten

/-- The loop over the hard-coded history_paths of search_history_records.py
lines 20-21: a root whose path does not exist is skipped with continue. -/
def shrScanRoots (target : Str) (roots : List (Option (List Folder))) : List Candidate :=
  match roots with
  | [] => []
  | none :: rest => shrScanRoots target rest
  | some fs :: rest => shrScan target fs ++ shrScanRoots target rest

/-- found_files after the sort of line 49: descending by timestamp.  Every
element of this list is printed, and then copied; this is the result
listing of search_history_records.py. -/
def shrListing (target : Str) (folders : List Folder) : List Candidate :=
  sortDescBy Candidate.ts (shrScan target folders)

/-- The REV output name of search_history_records.py line 54: the prefix
REV, the formatted timestamp, the byte size and the basename of the
resource URI, joined by underscores. -/
def shrSafeName (c : Candidate) : Str :=
  ("REV_").toList ++ fmtMDHMS c.ts ++ '_' ::
    (Nat.toDigits 10 c.bytes.length ++ '_' :: basename c.uri)

/-- The copy loop of search_history_records.py lines 51-56: each listed
candidate's blob bytes are written into the output directory under its REV
name, in listing order. -/
def shrCopyAll (dir : Dir) : List Candidate → Dir
  | [] => dir
  | c :: rest => shrCopyAll (dirWrite dir (shrSafeName c) c.bytes) rest

/-! ### recover_history.py -/

/-- Python max with a timestamp key over a nonempty list: the first entry
with the maximal timestamp (a later entry replaces the current one only
when strictly greater). -/
def latestEntry (e : SnapshotEntry) : List SnapshotEntry → SnapshotEntry
  | [] => e
  | x :: rest =>
    if x.timestamp > e.timestamp then latestEntry x rest else latestEntry e rest

/-- Per-folder step of recover_history.py lines 19-42 (the over-indented
block under the with statement is modelled as nested there, which is the
evident intent): a folder with a missing or unparsable manifest is skipped;
a resource URI already present among the accumulated candidates is skipped
(deduplication by resource URI); otherwise only the latest entry of the
manifest is considered, and appended when its blob file exists. -/
def rhFolder (acc : List Candidate) (f : Folder) : List Candidate :=
  match f.manifest with
  | ManifestState.missing => acc
  | ManifestState.parseError => acc
  | ManifestState.ok m =>
    if m.resource ∈ acc.map Candidate.uri then acc
    else
      match m.entries with
      | [] => acc
      | e :: rest =>
        match lookupBlob f.blobs (latestEntry e rest).id with
        | some (BlobState.present bytes) =>
          acc ++ [{ ts := (latestEntry e rest).timestamp, uri := m.resource,
                    blobId := (latestEntry e rest).id, bytes := bytes }]
        | some BlobState.statError => acc
        | none => acc

/-- The found_files list of recover_history.py after the folder loop. -/
def rhScan (folders : List Folder) : List Candidate :=
  folders.foldl rhFolder []

/-- found_files of recover_history.py after the sort of line 42. -/
def rhListing (folders : List Folder) : List Candidate :=
  sortDescBy Candidate.ts (rhScan folders)

/-- The candidates actually copied by recover_history.py lines 45-51: only
the first 50 of the sorted listing. -/
def rhCopied (folders : List Folder) : List Candidate :=
  (rhListing folders).take 50

/-- The count printed by the final summary line of recover_history.py,
which reports the length of found_files as the number of files copied. -/
def rhReported (folders : List Folder) : Nat :=
  (rhListing folders).length

/-- The whole run of recover_history.py on its single hard-coded root:
lines 9-11 exit with status 1 when the root path does not exist; otherwise
the scan produces the listing. -/
def rhRun (root : Option (List Folder)) : Except Nat (List Candidate) :=
  match root with
  | none => Except.error 1
  | some folders => Except.ok (rhListing folders)

/-! ### find_records_history.py -/

/-- One file met by the os.walk of find_records_history.py: its path, the
stat size, the text of the file as read with permissive decoding, and its
mtime in milliseconds. -/
structure FileRec where
  path : Str
  size : Nat
  text : Str
  mtimeMs : Nat
  deriving DecidableEq

/-- The first content marker required in the header. -/
def importMarker : Str := ("import").toList

/-- The second content marker required in the header. -/
def reactMarker : Str := ("React").toList

/-- The per-file selection of find_records_history.py lines 25-31: the
stat size must lie strictly between 550000 and 650000, and the first 1000
characters of the file must contain both content markers. -/
def frhMatches (r : FileRec) : Bool :=
  (decide (550000 < r.size) && decide (r.size < 650000)) &&
    (strContains (r.text.take 1000) importMarker &&
      strContains (r.text.take 1000) reactMarker)

/-- Modelled from the spec: the size-window wording of the spec asks for
inclusive-exclusive bounds, low ≤ size < high, together with the same
content-marker requirement; stated here only to be compared with the
code's frhMatches. -/
def specSizeContentMatches (r : FileRec) : Bool :=
  (decide (550000 ≤ r.size) && decide (r.size < 650000)) &&
    (strContains (r.text.take 1000) importMarker &&
      strContains (r.text.take 1000) reactMarker)

/-- Modelled from the spec: the filename-match wording of the spec asks
that the basename of the resource URI, compared case-insensitively,
contain the target substring; stated here only to be compared with the
code's shrMatches. -/
def specFilenameMatches (target uri : Str) : Bool :=
  strContains (toLowerS (basename uri)) (toLowerS target)

/-- The copy loop input of find_records_history.py lines 37-41: the found
list sorted descending by mtime, truncated to the first 10. -/
def frhCopied (found : List FileRec) : List FileRec :=
  (sortDescBy FileRec.mtimeMs found).take 10

/-! ### recover_history_master.py -/

/-- The copy loop input of recover_history_master.py line 46: the
found_files list sorted descending by timestamp, truncated to the first
100. -/
def rhmCopied (found : List Candidate) : List Candidate :=
  (sortDescBy Candidate.ts found).take 100

/-- The safe_name of recover_history_master.py line 53: the formatted
timestamp and the basename of the resource URI, joined by an underscore. -/
def rhmSafeName (ms : Nat) (base : Str) : Str :=
  fmtMDHMS ms ++ '_' :: base

/-! ### Derived notions used to state the claims -/

/-- The SnapshotEntry occurrences of a folder whose sibling blob file
exists on disk (data-model notion from the spec, used to state claims). -/
def entriesWithExistingBlob (f : Folder) : List SnapshotEntry :=
  match f.manifest with
  | ManifestState.ok m => m.entries.filter (fun e => (lookupBlob f.blobs e.id).isSome)
  | _ => []

/-- Per-entry candidate extraction of a parsed, matching folder, written
as a filterMap; equal to shrEntriesGo when no blob is in stat-error state. -/
def shrQualifying (target : Str) (f : Folder) : List Candidate :=
  match f.manifest with
  | ManifestState.missing => []
  | ManifestState.parseError => []
  | ManifestState.ok m =>
    if shrMatches target m.resource then
      m.entries.filterMap (fun e =>
        match lookupBlob f.blobs e.id with
        | some (BlobState.present bytes) =>
          some { ts := e.timestamp, uri := m.resource, blobId := e.id, bytes := bytes }
        | _ => none)
    else []

/-- No blob of any folder is in stat-error state. -/
def noStatErrors (folders : List Folder) : Prop :=
  ∀ f ∈ folders, ∀ p ∈ f.blobs, p.2 ≠ BlobState.statError

theorem sortDescBy_perm (key : α → Nat) (l : List α) : (sortDescBy key l).Perm l :=
  List.mergeSort_perm l _

theorem sortDescBy_pairwise (key : α → Nat) (l : List α) :
    (sortDescBy key l).Pairwise (fun a b => key b ≤ key a) := by
  unfold sortDescBy
  have h : (l.mergeSort (fun a b => decide (key b ≤ key a))).Pairwise
      (fun a b => decide (key b ≤ key a) = true) :=
    @List.sorted_mergeSort _ (fun a b => decide (key b ≤ key a))
      (fun a b c h1 h2 =>
        decide_eq_true (Nat.le_trans (of_decide_eq_true h2) (of_decide_eq_true h1)))
      (fun a b => by
        show (decide (key b ≤ key a) || decide (key a ≤ key b)) = true
        rcases Nat.le_total (key b) (key a) with h | h
        · simp [h]
        · simp [h])
      l
  exact h.imp (fun hab => by simpa using hab)

theorem sortDescBy_length (key : α → Nat) (l : List α) :
    (sortDescBy key l).length = l.length :=
  (sortDescBy_perm key l).length_eq

theorem sortDescBy_take_dominates (key : α → Nat) (l : List α) (K : Nat) :
    ∀ x ∈ (sortDescBy key l).take K, ∀ y ∈ (sortDescBy key l).drop K, key y ≤ key x := by
  have hp := sortDescBy_pairwise key l
  rw [← List.take_append_drop K (sortDescBy key l)] at hp
  exact (List.pairwise_append.mp hp).2.2

/-- A substring of a list is a substring of any extension of it on the
left. -/
theorem strContains_append_left (l₁ l₂ n : Str) (h : strContains l₂ n = true) :
    strContains (l₁ ++ l₂) n = true := by
  induction l₁ with
  | nil => simpa using h
  | cons c t ih =>
    show (n.isPrefixOf (c :: (t ++ l₂)) || strContains (t ++ l₂) n) = true
    exact Bool.or_eq_true_iff.mpr (Or.inr ih)

/-- The basename of a path is a suffix of the path. -/
theorem basename_suffix (s : Str) :
    s = (s.reverse.dropWhile (fun c => !isSep c)).reverse ++ basename s := by
  rw [basename, ← List.reverse_append, List.takeWhile_append_dropWhile,
    List.reverse_reverse]

/-- Reading back the name just written returns the bytes just written. -/
theorem dirRead_dirWrite_self (d : Dir) (n : Str) (b : List Nat) :
    dirRead (dirWrite d n b) n = some b := by
  induction d with
  | nil => simp [dirWrite, dirRead]
  | cons p rest ih =>
    obtain ⟨m, c⟩ := p
    by_cases h : m = n
    · simp [dirWrite, dirRead, h]
    · simp [dirWrite, dirRead, h, ih]

/-- Writing one name does not change the content read under another. -/
theorem dirRead_dirWrite_ne (d : Dir) (n n' : Str) (b : List Nat) (h : n ≠ n') :
    dirRead (dirWrite d n b) n' = dirRead d n' := by
  induction d with
  | nil => simp [dirWrite, dirRead, h]
  | cons p rest ih =>
    obtain ⟨m, c⟩ := p
    by_cases hm : m = n
    · subst hm
      simp [dirWrite, dirRead, h]
    · simp [dirWrite, dirRead, hm, ih]

/-- Copying candidates none of which bears a given output name leaves the
file of that name unchanged. -/
theorem shrCopyAll_read_notin (cands : List Candidate) (d : Dir) (n : Str)
    (h : n ∉ cands.map shrSafeName) :
    dirRead (shrCopyAll d cands) n = dirRead d n := by
  induction cands generalizing d with
  | nil => rfl
  | cons c rest ih =>
    simp only [List.map_cons, List.mem_cons, not_or] at h
    show dirRead (shrCopyAll (dirWrite d (shrSafeName c) c.bytes) rest) n = dirRead d n
    rw [ih _ h.2, dirRead_dirWrite_ne _ _ _ _ (fun he => h.1 he.symm)]

/-- A successful blob lookup comes from a pair of the association list. -/
theorem lookupBlob_mem (blobs : List (Str × BlobState)) (id : Str) (b : BlobState)
    (h : lookupBlob blobs id = some b) : (id, b) ∈ blobs := by
  induction blobs with
  | nil => simp [lookupBlob] at h
  | cons p rest ih =>
    obtain ⟨n, s⟩ := p
    by_cases hn : n = id
    · subst hn
      simp [lookupBlob] at h
      simp [h]
    · simp [lookupBlob, hn] at h
      exact List.mem_cons_of_mem _ (ih h)

/-- Without stat errors among the blobs, the entry loop of
search_history_records.py is the plain filterMap over the entries. -/
theorem shrEntriesGo_eq_filterMap (blobs : List (Str × BlobState)) (uri : Str)
    (entries : List SnapshotEntry)
    (h : ∀ p ∈ blobs, p.2 ≠ BlobState.statError) :
    shrEntriesGo blobs uri entries =
      entries.filterMap (fun e =>
        match lookupBlob blobs e.id with
        | some (BlobState.present bytes) =>
          some { ts := e.timestamp, uri := uri, blobId := e.id, bytes := bytes }
        | _ => none) := by
  induction entries with
  | nil => rfl
  | cons e rest ih =>
    cases hl : lookupBlob blobs e.id with
    | none => simp [shrEntriesGo, List.filterMap_cons, hl, ih]
    | some b =>
      cases b with
      | present bytes => simp [shrEntriesGo, List.filterMap_cons, hl, ih]
      | statError => exact absurd rfl (h _ (lookupBlob_mem _ _ _ hl))

/-- Without stat errors, per-folder processing is the qualifying
filterMap. -/
theorem shrFolder_eq_shrQualifying (target : Str) (f : Folder)
    (h : ∀ p ∈ f.blobs, p.2 ≠ BlobState.statError) :
    shrFolder target f = shrQualifying target f := by
  cases hm : f.manifest with
  | missing => simp [shrFolder, shrQualifying, hm]
  | parseError => simp [shrFolder, shrQualifying, hm]
  | ok m =>
    by_cases hmt : shrMatches target m.resource
    · simp [shrFolder, shrQualifying, hm, hmt, shrEntriesGo_eq_filterMap _ _ _ h]
    · simp [shrFolder, shrQualifying, hm, hmt]

/-- The accumulated candidates of recover_history.py keep pairwise
distinct resource URIs: the step function appends a candidate only after
checking its URI against all accumulated ones. -/
theorem rhFolder_pairwise_uri (acc : List Candidate) (f : Folder)
    (h : acc.Pairwise (fun a b => a.uri ≠ b.uri)) :
    (rhFolder acc f).Pairwise (fun a b => a.uri ≠ b.uri) := by
  cases hm : f.manifest with
  | missing => simpa [rhFolder, hm] using h
  | parseError => simpa [rhFolder, hm] using h
  | ok m =>
    by_cases hmem : m.resource ∈ acc.map Candidate.uri
    · simpa [rhFolder, hm, hmem] using h
    · cases he : m.entries with
      | nil => simpa [rhFolder, hm, hmem, he] using h
      | cons e rest =>
        cases hl : lookupBlob f.blobs (latestEntry e rest).id with
        | none => simpa [rhFolder, hm, hmem, he, hl] using h
        | some b =>
          cases b with
          | statError => simpa [rhFolder, hm, hmem, he, hl] using h
          | present bytes =>
            simp only [rhFolder, hm, he, hl]
            rw [if_neg hmem, List.pairwise_append]
            refine ⟨h, List.pairwise_singleton _ _, ?_⟩
            intro a ha c hc
            simp only [List.mem_singleton] at hc
            subst hc
            intro huri
            have ha' : a.uri = m.resource := huri
            exact hmem (ha' ▸ List.mem_map_of_mem Candidate.uri ha)

/-- Pairwise URI distinctness of the whole recover_history.py scan. -/
theorem rhScan_pairwise_uri_aux (folders : List Folder) (acc : List Candidate)
    (h : acc.Pairwise (fun a b => a.uri ≠ b.uri)) :
    (folders.foldl rhFolder acc).Pairwise (fun a b => a.uri ≠ b.uri) := by
  induction folders generalizing acc with
  | nil => simpa using h
  | cons f rest ih => exact ih _ (rhFolder_pairwise_uri acc f h)

/-- The formatted timestamp always renders to exactly eleven characters. -/
theorem fmtMDHMS_length (ms : Nat) : (fmtMDHMS ms).length = 11 := by
  simp [fmtMDHMS, two]

/-! ### Claim C2 -/

/-- C2, counterexample.  The claim says a nonexistent HistoryRoot is never
a fatal error, citing recover_history.py lines 10-12; but that script, on
its single hard-coded root, prints a message and exits with status 1 when
the root does not exist.  The run is fatal, producing no candidates. -/
theorem c2_missing_root_fatal_counterexample :
    rhRun none = Except.error 1 := rfl

/-- C2, amended: in the multi-root scripts (search_history_records.py,
find_records_history.py) a nonexistent root is silently skipped and
contributes zero candidates, so the scan equals the scan of the existing
roots alone; but in the single-root scripts (recover_history.py,
recover_history_master.py) a nonexistent root aborts the run with exit
status 1. -/
theorem c2_amended_multiroot_skip (target : Str) (roots : List (Option (List Folder))) :
    shrScanRoots target roots = shrScanRoots target (roots.filter Option.isSome) := by
  induction roots with
  | nil => rfl
  | cons r rest ih =>
    cases r with
    | none => simpa [shrScanRoots, List.filter_cons] using ih
    | some fs => simp [shrScanRoots, List.filter_cons, ih]

/-! ### Claim C4 -/

/-- C4.  The result listing of search_history_records.py is sorted by
timestamp in non-increasing (descending) order, and sorting drops nothing:
every candidate of the scan, including candidates of equal timestamp,
occurs in the listing exactly as often as in the scan. -/
theorem c4_listing_sorted_desc_no_drop (target : Str) (folders : List Folder) :
    (shrListing target folders).Pairwise (fun a b => b.ts ≤ a.ts)
    ∧ ∀ c : Candidate,
        (shrListing target folders).count c = (shrScan target folders).count c := by
  constructor
  · exact sortDescBy_pairwise Candidate.ts (shrScan target folders)
  · intro c
    exact (sortDescBy_perm Candidate.ts (shrScan target folders)).count_eq c

/-! ### Claim C7 -/

/-- C7.  Failure isolation of search_history_records.py: a folder whose
manifest fails to parse contributes nothing and the scan of all other
folders is unchanged; an entry whose blob file does not exist is skipped
and the remaining entries of its folder are still processed; an entry
whose stat raises is caught by the per-folder except, excluding that entry
(and the rest of its folder) while the scan of the other folders goes on
to completion. -/
theorem c7_failure_isolation (target : Str) (pre post : List Folder) (f : Folder)
    (h : f.manifest = ManifestState.parseError) :
    shrScan target (pre ++ f :: post) = shrScan target pre ++ shrScan target post
    ∧ (∀ blobs uri e rest, lookupBlob blobs e.id = none →
        shrEntriesGo blobs uri (e :: rest) = shrEntriesGo blobs uri rest)
    ∧ (∀ blobs uri e rest, lookupBlob blobs e.id = some BlobState.statError →
        shrEntriesGo blobs uri (e :: rest) = []) := by
  refine ⟨?_, ?_, ?_⟩
  · simp [shrScan, shrFolder, h]
  · intro blobs uri e rest hl
    simp [shrEntriesGo, hl]
  · intro blobs uri e rest hl
    simp [shrEntriesGo, hl]

/-- A parse-failed folder used to instantiate c7_failure_isolation. -/
def c7badFolder : Folder :=
  { manifest := ManifestState.parseError, blobs := [] }

/-- A healthy folder used to instantiate c7_failure_isolation. -/
def c7goodFolder : Folder :=
  { manifest := ManifestState.ok
      { resource := ("a/Records.tsx").toList,
        entries := [{ id := ("b0").toList, timestamp := 5 }] },
    blobs := [(("b0").toList, BlobState.present [7])] }

/-- Witness for c7_failure_isolation at concrete folders. -/
theorem c7_witness :
    c7badFolder.manifest = ManifestState.parseError
    ∧ (shrScan ("Records.tsx").toList ([c7goodFolder] ++ c7badFolder :: [])
          = shrScan ("Records.tsx").toList [c7goodFolder]
            ++ shrScan ("Records.tsx").toList []
        ∧ (∀ blobs uri e rest, lookupBlob blobs e.id = none →
            shrEntriesGo blobs uri (e :: rest) = shrEntriesGo blobs uri rest)
        ∧ (∀ blobs uri e rest, lookupBlob blobs e.id = some BlobState.statError →
            shrEntriesGo blobs uri (e :: rest) = [])) :=
  ⟨rfl, c7_failure_isolation (("Records.tsx").toList) [c7goodFolder] [] c7badFolder rfl⟩

/-! ### Claim C5 -/

/-- Header text holding both content markers within its first 1000
characters. -/
def importReactText : Str := ("import React from x").toList

/-- A file whose stat size is exactly the lower bound 550000. -/
def c5rec550 : FileRec :=
  { path := ("p").toList, size := 550000, text := importReactText, mtimeMs := 0 }

/-- A file of 580000 bytes with both markers, from the spec scenario. -/
def c5rec580 : FileRec :=
  { path := ("p580").toList, size := 580000, text := importReactText, mtimeMs := 1 }

/-- A file of 610000 bytes with both markers, from the spec scenario. -/
def c5rec610 : FileRec :=
  { path := ("p610").toList, size := 610000, text := importReactText, mtimeMs := 2 }

/-- C5, counterexample.  The claim says the size window selects exactly
when low ≤ size < high with the bounds 550000 and 650000; the code of
find_records_history.py line 26 tests 550000 < size < 650000, strict on
both sides, so a blob of exactly 550000 bytes carrying both content
markers is selected by the claimed inclusive-exclusive window but rejected
by the code. -/
theorem c5_inclusive_bound_counterexample :
    frhMatches c5rec550 = false ∧ specSizeContentMatches c5rec550 = true := by
  constructor
  · decide
  · decide

/-- C5, amended: the size window of find_records_history.py is strict on
both sides: a file is selected exactly when 550000 < size < 650000 and its
first 1000 characters contain both content markers.  The spec scenario is
unaffected: entries of 580000 and 610000 bytes with both markers lie
strictly inside the window and are selected. -/
theorem c5_amended_strict_size_window :
    (∀ r : FileRec, frhMatches r = true ↔
      (550000 < r.size ∧ r.size < 650000
        ∧ strContains (r.text.take 1000) importMarker = true
        ∧ strContains (r.text.take 1000) reactMarker = true))
    ∧ frhMatches c5rec580 = true ∧ frhMatches c5rec610 = true := by
  refine ⟨fun r => ?_, by decide, by decide⟩
  simp [frhMatches, and_assoc]

/-! ### Claim C8 -/

/-- The target filename of search_history_records.py. -/
def c8target : Str := ("Records.tsx").toList

/-- A resource URI whose directory part contains the target but whose
basename does not. -/
def c8uri : Str := ("x/Records.tsx/y.txt").toList

/-- A resource URI whose basename contains the target. -/
def c8wUri : Str := ("src/Records.tsx").toList

/-- C8, counterexample.  The claim says a manifest is selected exactly
when the basename of its resource URI case-insensitively contains the
target; the code of search_history_records.py line 34 tests the whole
lowercased URI.  A URI with the target in a directory component and a
different basename is selected by the code although its basename does not
contain the target. -/
theorem c8_fullpath_match_counterexample :
    shrMatches c8target c8uri = true ∧ specFilenameMatches c8target c8uri = false := by
  constructor
  · decide
  · decide

/-- C8, amended: the filename selector of search_history_records.py
matches the target substring against the whole lowercased resource URI,
not only its basename; every manifest whose basename contains the target
is still selected (the basename is a suffix of the URI), but manifests
matching only in a directory component are selected too. -/
theorem c8_amended_full_uri_match (target uri : Str) :
    (shrMatches target uri = true ↔
      strContains (toLowerS uri) (toLowerS target) = true)
    ∧ (specFilenameMatches target uri = true → shrMatches target uri = true) := by
  constructor
  · exact Iff.rfl
  · intro h
    have h2 : toLowerS uri =
        toLowerS ((uri.reverse.dropWhile (fun c => !isSep c)).reverse)
          ++ toLowerS (basename uri) := by
      conv_lhs => rw [basename_suffix uri]
      simp [toLowerS]
    unfold shrMatches
    rw [h2]
    exact strContains_append_left _ _ _ h

/-- Witness for c8_amended_full_uri_match: a URI whose basename contains
the target is selected. -/
theorem c8_witness :
    specFilenameMatches c8target c8wUri = true ∧ shrMatches c8target c8wUri = true :=
  ⟨by decide, (c8_amended_full_uri_match c8target c8wUri).2 (by decide)⟩

/-! ### Claim C6 -/

/-- A basename used to exhibit the output-name collision. -/
def c6base : Str := ("Records.tsx").toList

/-- C6, counterexample.  The claim says two candidates with distinct
source timestamps never collide in the output directory.  The safe_name of
recover_history_master.py embeds the timestamp only at second resolution:
the distinct timestamps 100 ms and 900 ms render identically, the two
names coincide, and copying both candidates leaves a single file, the
second copy having overwritten the first. -/
theorem c6_name_collision_counterexample :
    (100 : Nat) ≠ 900
    ∧ rhmSafeName 100 c6base = rhmSafeName 900 c6base
    ∧ (dirWrite (dirWrite [] (rhmSafeName 100 c6base) [1]) (rhmSafeName 900 c6base) [2]).length = 1
    ∧ dirRead (dirWrite (dirWrite [] (rhmSafeName 100 c6base) [1]) (rhmSafeName 900 c6base) [2])
        (rhmSafeName 100 c6base) = some [2] := by
  refine ⟨by decide, by decide, by decide, by decide⟩

/-- C6, amended: for a fixed original basename, the output names of
recover_history_master.py are distinct exactly when the formatted
timestamp strings are distinct; distinct raw timestamps guarantee nothing,
since two timestamps in the same second (or rendering to the same
month-day-hour-minute-second string in different years) produce the same
name and the later copy overwrites the earlier one. -/
theorem c6_amended_name_unique_iff_fmt_eq (ms1 ms2 : Nat) (base : Str) :
    rhmSafeName ms1 base = rhmSafeName ms2 base ↔ fmtMDHMS ms1 = fmtMDHMS ms2 := by
  constructor
  · intro h
    have hl : (fmtMDHMS ms1).length = (fmtMDHMS ms2).length := by
      rw [fmtMDHMS_length, fmtMDHMS_length]
    exact (List.append_inj h hl).1
  · intro h
    unfold rhmSafeName
    rw [h]

/-! ### Claim C9 -/

/-- C9.  Binary-safe copying in search_history_records.py: writing a
blob's bytes into the output directory stores exactly those bytes, and
after the whole copy loop, provided the generated output names are
pairwise distinct, reading back any copied candidate's file returns bytes
identical to its source blob. -/
theorem c9_copy_roundtrip (dir : Dir) (cands : List Candidate) (c : Candidate)
    (hmem : c ∈ cands) (hnd : (cands.map shrSafeName).Nodup) :
    dirRead (shrCopyAll dir cands) (shrSafeName c) = some c.bytes := by
  induction cands generalizing dir with
  | nil => cases hmem
  | cons a rest ih =>
    simp only [List.map_cons, List.nodup_cons] at hnd
    rcases List.mem_cons.mp hmem with he | hr
    · subst he
      show dirRead (shrCopyAll (dirWrite dir (shrSafeName c) c.bytes) rest) (shrSafeName c)
        = some c.bytes
      rw [shrCopyAll_read_notin rest _ _ hnd.1, dirRead_dirWrite_self]
    · exact ih _ hr hnd.2

/-- Two candidates with distinct timestamps, hence distinct output
names, to instantiate c9_copy_roundtrip. -/
def c9cand1 : Candidate :=
  { ts := 0, uri := ("a/Records.tsx").toList, blobId := ("b1").toList, bytes := [1, 2, 3] }

/-- Second concrete candidate for the c9 witness. -/
def c9cand2 : Candidate :=
  { ts := 1000, uri := ("a/Records.tsx").toList, blobId := ("b2").toList, bytes := [4, 5] }

/-- Witness for c9_copy_roundtrip on a two-candidate copy run. -/
theorem c9_witness :
    (c9cand1 ∈ [c9cand1, c9cand2]
        ∧ ([c9cand1, c9cand2].map shrSafeName).Nodup)
    ∧ dirRead (shrCopyAll [] [c9cand1, c9cand2]) (shrSafeName c9cand1) = some c9cand1.bytes :=
  ⟨⟨by decide, by decide⟩, c9_copy_roundtrip [] [c9cand1, c9cand2] c9cand1 (by decide) (by decide)⟩

/-! ### Claim C3 -/

/-- C3.  With the candidate cap of find_records_history.py (10) or
recover_history_master.py (100) and at least that many matching
candidates, the copy loop copies exactly the cap's worth of files, every
copied candidate's timestamp is at least every uncopied one's, and copied
plus uncopied together are a permutation of the matches (nothing else is
copied). -/
theorem c3_limit_copies_top_k (foundF : List FileRec) (foundM : List Candidate)
    (hF : 10 ≤ foundF.length) (hM : 100 ≤ foundM.length) :
    ((frhCopied foundF).length = 10
      ∧ (∀ x ∈ frhCopied foundF, ∀ y ∈ (sortDescBy FileRec.mtimeMs foundF).drop 10,
          y.mtimeMs ≤ x.mtimeMs)
      ∧ (frhCopied foundF ++ (sortDescBy FileRec.mtimeMs foundF).drop 10).Perm foundF)
    ∧ ((rhmCopied foundM).length = 100
      ∧ (∀ x ∈ rhmCopied foundM, ∀ y ∈ (sortDescBy Candidate.ts foundM).drop 100,
          y.ts ≤ x.ts)
      ∧ (rhmCopied foundM ++ (sortDescBy Candidate.ts foundM).drop 100).Perm foundM) := by
  constructor
  · refine ⟨?_, ?_, ?_⟩
    · unfold frhCopied
      rw [List.length_take, sortDescBy_length]
      omega
    · exact sortDescBy_take_dominates FileRec.mtimeMs foundF 10
    · unfold frhCopied
      rw [List.take_append_drop]
      exact sortDescBy_perm FileRec.mtimeMs foundF
  · refine ⟨?_, ?_, ?_⟩
    · unfold rhmCopied
      rw [List.length_take, sortDescBy_length]
      omega
    · exact sortDescBy_take_dominates Candidate.ts foundM 100
    · unfold rhmCopied
      rw [List.take_append_drop]
      exact sortDescBy_perm Candidate.ts foundM

/-- Witness for c3_limit_copies_top_k on replicated concrete lists of
lengths exactly 10 and 100. -/
theorem c3_witness :
    (10 ≤ (List.replicate 10 c5rec550).length
        ∧ 100 ≤ (List.replicate 100 c9cand1).length)
    ∧ (((frhCopied (List.replicate 10 c5rec550)).length = 10
      ∧ (∀ x ∈ frhCopied (List.replicate 10 c5rec550),
          ∀ y ∈ (sortDescBy FileRec.mtimeMs (List.replicate 10 c5rec550)).drop 10,
          y.mtimeMs ≤ x.mtimeMs)
      ∧ (frhCopied (List.replicate 10 c5rec550)
          ++ (sortDescBy FileRec.mtimeMs (List.replicate 10 c5rec550)).drop 10).Perm
          (List.replicate 10 c5rec550))
    ∧ ((rhmCopied (List.replicate 100 c9cand1)).length = 100
      ∧ (∀ x ∈ rhmCopied (List.replicate 100 c9cand1),
          ∀ y ∈ (sortDescBy Candidate.ts (List.replicate 100 c9cand1)).drop 100,
          y.ts ≤ x.ts)
      ∧ (rhmCopied (List.replicate 100 c9cand1)
          ++ (sortDescBy Candidate.ts (List.replicate 100 c9cand1)).drop 100).Perm
          (List.replicate 100 c9cand1))) :=
  ⟨⟨by simp, by simp⟩,
    c3_limit_copies_top_k (List.replicate 10 c5rec550) (List.replicate 100 c9cand1)
      (by simp) (by simp)⟩

/-! ### Claim C1 -/

/-- Target substring used to instantiate the C1 theorems. -/
def c1target : Str := ("records").toList

/-- A folder whose manifest has two entries, both with existing sibling
blobs. -/
def c1folder : Folder :=
  { manifest := ManifestState.ok
      { resource := ("a/Records.tsx").toList,
        entries := [{ id := ("x").toList, timestamp := 1 },
                    { id := ("y").toList, timestamp := 2 }] },
    blobs := [(("x").toList, BlobState.present [0]),
              (("y").toList, BlobState.present [1])] }

/-- C1, counterexample.  The claim says every SnapshotEntry with an
existing blob that satisfies every active selector clause appears exactly
once in the result listing, with no deduplication by resource URI, citing
the collection loops of both search_history_records.py and
recover_history.py.  recover_history.py deduplicates: on a well-formed
manifest with two entries whose blobs both exist (and no selector clause
active in that script), its listing holds a single candidate, so one
qualifying entry does not appear. -/
theorem c1_rh_dedup_counterexample :
    (entriesWithExistingBlob c1folder).length = 2
    ∧ (rhListing [c1folder]).length = 1 := by
  constructor
  · decide
  · show (sortDescBy Candidate.ts (rhScan [c1folder])).length = 1
    rw [sortDescBy_length]
    decide

/-- C1, amended: in search_history_records.py no deduplication happens:
with no stat errors, every qualifying SnapshotEntry occurrence (manifest
parsed, resource URI matching, sibling blob existing) yields exactly one
candidate of the result listing, with multiplicity preserved; in
recover_history.py, by contrast, deduplication by resource URI is applied:
the candidates of its scan carry pairwise distinct resource URIs (at most
one candidate per original file, the latest entry of the first folder seen
for that URI). -/
theorem c1_amended_no_dedup_in_shr (target : Str) (folders : List Folder)
    (h : noStatErrors folders) :
    (∀ c : Candidate,
        (shrListing target folders).count c
          = ((folders.map (shrQualifying target)).flatten).count c)
    ∧ (rhScan folders).Pairwise (fun a b => a.uri ≠ b.uri) := by
  constructor
  · intro c
    unfold shrListing
    rw [(sortDescBy_perm Candidate.ts (shrScan target folders)).count_eq]
    have hq : shrScan target folders = (folders.map (shrQualifying target)).flatten := by
      unfold shrScan
      congr 1
      apply List.map_congr_left
      intro f hf
      exact shrFolder_eq_shrQualifying target f (fun p hp => h f hf p hp)
    rw [hq]
  · exact rhScan_pairwise_uri_aux folders [] List.Pairwise.nil

/-- Witness for c1_amended_no_dedup_in_shr at a concrete stat-error-free
input. -/
theorem c1_amended_witness :
    noStatErrors [c1folder]
    ∧ ((∀ c : Candidate,
        (shrListing c1target [c1folder]).count c
          = (([c1folder].map (shrQualifying c1target)).flatten).count c)
      ∧ (rhScan [c1folder]).Pairwise (fun a b => a.uri ≠ b.uri)) :=
  ⟨by unfold noStatErrors; decide, c1_amended_no_dedup_in_shr c1target [c1folder] (by unfold noStatErrors; decide)⟩

/-! ### Claim C10 -/

/-- Fifty-one folders with pairwise distinct resource URIs, each with one
entry whose blob exists, so that recover_history.py finds 51 candidates. -/
def c10folders : List Folder :=
  (List.range 51).map (fun i =>
    { manifest := ManifestState.ok
        { resource := Nat.toDigits 10 i,
          entries := [{ id := ("b").toList, timestamp := i }] },
      blobs := [(("b").toList, BlobState.present [])] })

/-- C10.  recover_history.py copies only the first 50 candidates of its
sorted listing, while the final summary line prints the length of the
whole listing as the number of files copied: the reported count equals the
total number of matches, and whenever more than 50 candidates match, the
number of files actually copied is exactly 50, strictly below the printed
count. -/
theorem c10_copied_vs_reported (folders : List Folder) (h : 50 < rhReported folders) :
    rhReported folders = (rhScan folders).length
    ∧ (rhCopied folders).length = 50
    ∧ (rhCopied folders).length < rhReported folders := by
  unfold rhReported rhCopied at *
  refine ⟨?_, ?_, ?_⟩
  · unfold rhListing
    rw [sortDescBy_length]
  · rw [List.length_take]
    omega
  · rw [List.length_take]
    omega

set_option maxRecDepth 100000 in
/-- Witness for c10_copied_vs_reported: 51 matching candidates, 50 copies,
a printed count of 51. -/
theorem c10_witness :
    50 < rhReported c10folders
    ∧ (rhReported c10folders = (rhScan c10folders).length
        ∧ (rhCopied c10folders).length = 50
        ∧ (rhCopied c10folders).length < rhReported c10folders) :=
  ⟨by
      unfold rhReported rhListing
      rw [sortDescBy_length]
      decide,
    c10_copied_vs_reported c10folders (by
      unfold rhReported rhListing
      rw [sortDescBy_length]
      decide)⟩
